import Mathlib

set_option maxRecDepth 100000
set_option maxHeartbeats 1000000

/-!
Verification development for a Go client library of the Active24 DNS REST API
(package `active24`, files `client.go` and `dns.go`).

The Go code is shallowly embedded: pure pieces become Lean functions, the
HTTP transport becomes an explicit `Server` (respectively `Transport`)
function parameter, and Go's `(value, error)` pairs become pairs with an
`Option ApiErrorVal` component (`none` models a nil `ApiError`).
Go ints are modelled as `Int`, Go strings as `String`, nil slices as `[]`.
-/

/-- Decidable equality for `Except`, so that concrete runs of the
fallible functions below can be checked by `decide`. -/
instance {ε α : Type} [DecidableEq ε] [DecidableEq α] : DecidableEq (Except ε α) := fun a b =>
  match a, b with
  | .error e, .error f =>
    if h : e = f then .isTrue (congrArg Except.error h)
    else .isFalse (by intro hh; injection hh with h2; exact h h2)
  | .error _, .ok _ => .isFalse (by intro hh; exact Except.noConfusion hh)
  | .ok _, .error _ => .isFalse (by intro hh; exact Except.noConfusion hh)
  | .ok e, .ok f =>
    if h : e = f then .isTrue (congrArg Except.ok h)
    else .isFalse (by intro hh; injection hh with h2; exact h h2)

namespace Active24

/-- A DNS record, from the struct `DnsRecord` in `dns.go`.  Go pointer
fields (absent-able JSON fields) are modelled as `Option`. -/
structure DnsRecord where
  type : Option String
  id : Option Int
  name : String
  content : Option String
  ttl : Int
  priority : Option Int
  port : Option Int
  weight : Option Int
deriving DecidableEq

/-- One page of a list response, from the struct
`DnsRecordPaginatedCollection` in `dns.go`. -/
structure DnsRecordPaginatedCollection where
  currentPage : Option Int
  totalPages : Option Int
  totalRecords : Option Int
  rowsPerPage : Option Int
  nextPageUrl : Option String
  data : List DnsRecord
deriving DecidableEq

/-- The zero value of `DnsRecordPaginatedCollection` (`var ret ...` in Go):
all pointers nil, nil slice. -/
def emptyColl : DnsRecordPaginatedCollection :=
  ⟨none, none, none, none, none, []⟩

/-- Which `fmt.Errorf`/library error a failure came from.  Each constructor
corresponds to one error-producing site reached by the client code. -/
inductive ErrKind where
  /-- transport-level failure of `http.Client.Do` (no response) -/
  | transport
  /-- `url.ParseQuery` failed on the continuation locator -/
  | parseQueryFailed
  /-- `fmt.Errorf("invalid response from API: %d", code)` in `ListPaginated` -/
  | invalidStatus (code : Int)
  /-- `io.ReadAll` failed on the response body -/
  | bodyRead
  /-- `json.Unmarshal` failed on the response body -/
  | unmarshal
  /-- `fmt.Errorf("maximum page limit reached in List, ...")` in `List` -/
  | pageLimit (maxPages : Int)
deriving DecidableEq

/-- Model of `*http.Response` as far as the client inspects it. -/
structure HttpResponse where
  statusCode : Int
deriving DecidableEq

/-- The concrete `apiError` struct of `client.go`: an error with an
optional attached response.  A Go nil `ApiError` is `Option ApiErrorVal`'s
`none`. -/
structure ApiErrorVal where
  err : ErrKind
  resp : Option HttpResponse
deriving DecidableEq

/-- Model of `func apiErr(resp *http.Response, err error) ApiError` of
`client.go`: nil when the error is nil, otherwise the error wrapped
together with the (possibly nil) response. -/
def apiErr (resp : Option HttpResponse) (err : Option ErrKind) : Option ApiErrorVal :=
  match err with
  | none => none
  | some e => some ⟨e, resp⟩

/-- Outcome of reading and decoding a response body in `ListPaginated`:
`io.ReadAll` failure, `json.Unmarshal` failure, or a decoded collection. -/
inductive RespBody where
  | readErr
  | decodeErr
  | coll (c : DnsRecordPaginatedCollection)
deriving DecidableEq

/-- Outcome of one `doWithParams` call as seen by `ListPaginated`: a
transport error (nil response), or a response with a status code and body. -/
inductive ServerResult where
  | transportErr
  | resp (status : Int) (body : RespBody)
deriving DecidableEq

/-- The HTTP server side of the list flow, abstracted as a function from
the request's query parameters (in the order the client added them) to the
outcome of the round trip. -/
def Server := List (String × String) → ServerResult

/-! ### url.ParseQuery, modelled from Go's net/url -/

/-- Numeric value of a hex digit, as Go's `unhex`. -/
def hexVal (c : Char) : Option Nat :=
  if '0' ≤ c ∧ c ≤ '9' then some (c.toNat - '0'.toNat)
  else if 'a' ≤ c ∧ c ≤ 'f' then some (c.toNat - 'a'.toNat + 10)
  else if 'A' ≤ c ∧ c ≤ 'F' then some (c.toNat - 'A'.toNat + 10)
  else none

/-- Go `url.QueryUnescape`: `%XX` decodes to a byte, `+` to space, a
malformed escape is an error (`none`). -/
def queryUnescapeChars : List Char → Option (List Char)
  | [] => some []
  | '%' :: a :: b :: rest =>
    match hexVal a, hexVal b with
    | some ha, some hb => (queryUnescapeChars rest).map (fun l => Char.ofNat (16 * ha + hb) :: l)
    | _, _ => none
  | '%' :: _ => none
  | '+' :: rest => (queryUnescapeChars rest).map (fun l => ' ' :: l)
  | c :: rest => (queryUnescapeChars rest).map (fun l => c :: l)

/-- Split a character list on a separator character; pieces never contain
the separator.  Models the iterated `strings.Cut` of Go's `parseQuery`. -/
def splitChar (sep : Char) : List Char → List Char → List (List Char)
  | [], acc => [acc.reverse]
  | c :: rest, acc =>
    if c = sep then acc.reverse :: splitChar sep rest []
    else splitChar sep rest (c :: acc)

/-- Go `strings.Cut(piece, "=")`: the part before the first `=` and the
part after it (empty when there is no `=`). -/
def cutAtEq : List Char → List Char × List Char
  | [] => ([], [])
  | '=' :: rest => ([], rest)
  | c :: rest =>
    let (k, v) := cutAtEq rest
    (c :: k, v)

/-- One piece of a query string, as in Go's `parseQuery` loop: a piece
containing `;` is an error, an empty piece is skipped, otherwise the piece
is cut at `=` and both halves query-unescaped (an unescape failure is an
error). -/
def parsePiece (piece : List Char) : Except Unit (Option (String × String)) :=
  if piece.contains ';' then .error ()
  else if piece = [] then .ok none
  else
    match queryUnescapeChars (cutAtEq piece).1, queryUnescapeChars (cutAtEq piece).2 with
    | some k, some v => .ok (some (String.mk k, String.mk v))
    | _, _ => .error ()

/-- All pieces of a query string in order.  Go records the first error but
its caller (`ListPaginated`) aborts on any error, so an `Except` that fails
when any piece fails is observationally equivalent. -/
def parseQueryPieces : List (List Char) → Except Unit (List (String × String))
  | [] => .ok []
  | p :: rest =>
    match parsePiece p, parseQueryPieces rest with
    | .error _, _ => .error ()
    | .ok _, .error _ => .error ()
    | .ok none, .ok l => .ok l
    | .ok (some kv), .ok l => .ok (kv :: l)

/-- Go `url.ParseQuery`, as a list of key/value pairs in occurrence order.
(Go stores them in a `map[string][]string`; occurrence order is the map's
insertion order.  Map iteration order is unspecified in Go; wherever the
client iterates such a map this model fixes first-occurrence order.) -/
def parseQuery (s : String) : Except Unit (List (String × String)) :=
  parseQueryPieces (splitChar '&' s.data [])

/-! ### ListPaginated: query-parameter construction and the round trip -/

/-- The literal value placed in `filters[type]`:
`fmt.Sprintf("[\"%s\"]", recType)`. -/
def typeFilterVal (recType : String) : String :=
  "[\"" ++ recType ++ "\"]"

/-- The query parameters every list request starts from, per
`ListPaginated` in `dns.go`: the fixed sort, then the optional type and
name filters. -/
def baseParams (recType recName : String) : List (String × String) :=
  [("descending", "false"), ("sortBy", "name")]
    ++ (if recType ≠ "" then [("filters[type]", typeFilterVal recType)] else [])
    ++ (if recName ≠ "" then [("filters[name]", recName)] else [])

/-- The full query-parameter list built by `ListPaginated`, or the
`url.ParseQuery` error.  When a non-empty continuation locator is given,
Go parses it and examines a single map entry (`for k, v := range ...`
with an unconditional `break`): if that entry's key and first value are
non-empty, that one pair is added and the numeric page parameter is
suppressed.  The model determinizes Go's unspecified map order to the
first-occurrence entry, i.e. the head of the parsed pair list.  The
numeric `page` parameter is added only when no locator pair was added and
the requested page exceeds 1. -/
def listPaginatedParams (recType recName recPageUrl : String) (recPage : Int) :
    Except Unit (List (String × String)) :=
  let ps := baseParams recType recName
  if recPageUrl ≠ "" then
    match parseQuery recPageUrl with
    | .error _ => .error ()
    | .ok pairs =>
      match pairs with
      | [] => .ok (if recPage > 1 then ps ++ [("page", toString recPage)] else ps)
      | (k, v) :: _ =>
        if k ≠ "" ∧ v ≠ "" then .ok (ps ++ [(k, v)])
        else .ok (if recPage > 1 then ps ++ [("page", toString recPage)] else ps)
  else .ok (if recPage > 1 then ps ++ [("page", toString recPage)] else ps)

/-- Model of `func (d *domainAction) ListPaginated` of `dns.go`: build the
parameters, perform the round trip, fail on a 400–599 status, then on a
body-read or decode failure; otherwise return the decoded collection.
(On Go's error paths the returned collection is the zero value or is
discarded by the caller; the model returns the zero value.) -/
def listPaginated (svr : Server) (recType recName recPageUrl : String) (recPage : Int) :
    DnsRecordPaginatedCollection × Option ApiErrorVal :=
  match listPaginatedParams recType recName recPageUrl recPage with
  | .error _ => (emptyColl, apiErr none (some .parseQueryFailed))
  | .ok ps =>
    match svr ps with
    | .transportErr => (emptyColl, apiErr none (some .transport))
    | .resp status body =>
      if 399 < status ∧ status < 600 then
        (emptyColl, apiErr (some ⟨status⟩) (some (.invalidStatus status)))
      else
        match body with
        | .readErr => (emptyColl, apiErr (some ⟨status⟩) (some .bodyRead))
        | .decodeErr => (emptyColl, apiErr (some ⟨status⟩) (some .unmarshal))
        | .coll c => (c, apiErr (some ⟨status⟩) none)

/-! ### ListPage: continuation decision -/

/-- Go `strings.TrimLeft(s, "/?")`: drop every leading `/` or `?`. -/
def trimLeftSlashQuestion (s : String) : String :=
  String.mk (s.data.dropWhile (fun c => c == '/' || c == '?'))

/-- The numeric arm of the continuation switch in `ListPage`: when both
`currentPage` and `totalPages` are present and `currentPage < totalPages`,
the next page number is `currentPage + 1`; otherwise no continuation. -/
def contNumeric (ret : DnsRecordPaginatedCollection) : String × Int :=
  match ret.currentPage, ret.totalPages with
  | some cp, some tp => if cp < tp then ("", cp + 1) else ("", 0)
  | _, _ => ("", 0)

/-- The continuation switch of `ListPage` in `dns.go`: a present,
non-empty `nextPageUrl` wins and is trimmed of leading `/` and `?`;
otherwise the numeric arm applies. -/
def contDecision (ret : DnsRecordPaginatedCollection) : String × Int :=
  match ret.nextPageUrl with
  | some s => if s ≠ "" then (trimLeftSlashQuestion s, 0) else contNumeric ret
  | none => contNumeric ret

/-- Model of `func (d *domainAction) ListPage` of `dns.go`: one paginated fetch;
on error return nil records and zero continuation state, otherwise the
page's records and the continuation decision. -/
def listPage (svr : Server) (recType recName recPageUrl : String) (recPage : Int) :
    List DnsRecord × String × Int × Option ApiErrorVal :=
  match listPaginated svr recType recName recPageUrl recPage with
  | (_, some e) => ([], "", 0, some e)
  | (ret, none) => (ret.data, (contDecision ret).1, (contDecision ret).2, none)

/-! ### List: the pagination loop -/

/-- Configuration shared by all operations, from the `helper` struct of
`client.go` (the fields the modelled operations read). -/
structure Helper where
  apiEndpoint : String
  authKey : String
  authSecret : String
  maxPages : Int

/-- The observable outcome of `List`: the returned records and error,
instrumented with the list of per-page record slices actually fetched
(`pages`; its length is the number of successful fetches) and the total
number of fetches performed (`fetches`, counting a failing fetch too). -/
structure ListOut where
  records : List DnsRecord
  err : Option ApiErrorVal
  fetches : Nat
  pages : List (List DnsRecord)
deriving DecidableEq

/-- The code after the loop in `List`:
`if pageCount > maxPages && (nextPageUrl != "" || nextPage > maxPages)`
report the page-limit error with the accumulated records, else success. -/
def listFinish (maxPages pageCount : Int) (nextUrl : String) (nextPg : Int)
    (acc : List DnsRecord) (pages : List (List DnsRecord)) : ListOut :=
  if pageCount > maxPages ∧ (nextUrl ≠ "" ∨ nextPg > maxPages) then
    ⟨acc, apiErr none (some (.pageLimit maxPages)), pages.length, pages⟩
  else ⟨acc, none, pages.length, pages⟩

/-- The `for` loop of `List` in `dns.go`, with an explicit fuel (the loop
makes at most `maxPages` iterations since `pageCount` starts at 1, is
incremented each iteration, and the loop requires `pageCount ≤ maxPages`;
callers pass fuel `maxPages.toNat + 1`, so fuel never runs out before the
condition fails).  A failing fetch returns nil records and the fetch's
error at once. -/
def listLoop (maxPages : Int)
    (step : String → Int → List DnsRecord × String × Int × Option ApiErrorVal) :
    Nat → Int → String → Int → List DnsRecord → List (List DnsRecord) → ListOut
  | 0, pageCount, nextUrl, nextPg, acc, pages =>
    listFinish maxPages pageCount nextUrl nextPg acc pages
  | fuel + 1, pageCount, nextUrl, nextPg, acc, pages =>
    if (pageCount = 1 ∨ nextUrl ≠ "" ∨ nextPg > 0) ∧ pageCount ≤ maxPages then
      match step nextUrl nextPg with
      | (_, _, _, some e) => ⟨[], some e, pages.length + 1, pages⟩
      | (recs, nextUrl2, nextPg2, none) =>
        listLoop maxPages step fuel (pageCount + 1) nextUrl2 nextPg2 (acc ++ recs) (pages ++ [recs])
    else listFinish maxPages pageCount nextUrl nextPg acc pages

/-- Model of `func (d *domainAction) List` of `dns.go`: walk pages from
the empty continuation state, accumulating records. -/
def listRecords (h : Helper) (svr : Server) (recType recName : String) : ListOut :=
  listLoop h.maxPages (fun u p => listPage svr recType recName u p)
    (h.maxPages.toNat + 1) 1 "" 0 [] []

/-- Model of `func (d *domainAction) ListAll` of `dns.go`:
`return d.List("", "")`. -/
def listAllRecords (h : Helper) (svr : Server) : ListOut :=
  listRecords h svr "" ""

/-! ### JSON serialization of a DnsRecord -/

/-- A JSON scalar as emitted for `DnsRecord` fields. -/
inductive JsonVal where
  | str (s : String)
  | num (n : Int)
deriving DecidableEq

/-- One optional struct field under `encoding/json`: a nil pointer with
`omitempty` is omitted, a set pointer is emitted. -/
def optField {α : Type} (key : String) (f : α → JsonVal) : Option α → List (String × JsonVal)
  | none => []
  | some v => [(key, f v)]

/-- The JSON object `json.Marshal` produces for a `DnsRecord`, as the
ordered list of emitted key/value pairs: fields in struct declaration
order; the pointer fields `type`, `id`, `content`, `priority`, `port`,
`weight` carry `omitempty` and are emitted exactly when set; `name` and
`ttl` are plain fields and always emitted. -/
def dnsRecordJson (r : DnsRecord) : List (String × JsonVal) :=
  optField "type" JsonVal.str r.type
    ++ optField "id" JsonVal.num r.id
    ++ [("name", JsonVal.str r.name)]
    ++ optField "content" JsonVal.str r.content
    ++ [("ttl", JsonVal.num r.ttl)]
    ++ optField "priority" JsonVal.num r.priority
    ++ optField "port" JsonVal.num r.port
    ++ optField "weight" JsonVal.num r.weight

/-! ### The Signer: HMAC-SHA1 and lowercase hex, from client.go and its
crypto/sha1, crypto/hmac and encoding/hex dependencies -/

/-- Truncation to a 32-bit word. -/
def w32 (n : Nat) : Nat := n % 4294967296

/-- Left-rotation of a 32-bit word by `b` bits (`b ≤ 32`): the two shifted
parts occupy disjoint bit ranges, so addition equals bitwise or. -/
def rotl (b n : Nat) : Nat := w32 (n * 2 ^ b + n / 2 ^ (32 - b))

/-- The SHA-1 round constant for round `i`. -/
def sha1K (i : Nat) : Nat :=
  if i < 20 then 0x5A827999
  else if i < 40 then 0x6ED9EBA1
  else if i < 60 then 0x8F1BBCDC
  else 0xCA62C1D6

/-- The SHA-1 round function for round `i` (Ch, Parity, Maj, Parity). -/
def sha1F (i b c d : Nat) : Nat :=
  if i < 20 then (b &&& c) ||| ((4294967295 - b) &&& d)
  else if i < 40 then b ^^^ c ^^^ d
  else if i < 60 then (b &&& c) ||| (b &&& d) ||| (c &&& d)
  else b ^^^ c ^^^ d

/-- Big-endian 32-bit words from a byte list (length a multiple of 4). -/
def bytesToWords : List Nat → List Nat
  | b0 :: b1 :: b2 :: b3 :: rest => (((b0 * 256 + b1) * 256 + b2) * 256 + b3) :: bytesToWords rest
  | _ => []

/-- Extend the 16 message-schedule words to 80 (fuel-driven; callers pass
fuel 64). -/
def extendW : Nat → List Nat → List Nat
  | 0, ws => ws
  | f + 1, ws =>
    let n := ws.length
    if 80 ≤ n then ws
    else extendW f (ws ++ [rotl 1 ((ws.getD (n - 3) 0) ^^^ (ws.getD (n - 8) 0) ^^^ (ws.getD (n - 14) 0) ^^^ (ws.getD (n - 16) 0))])

/-- The 80 SHA-1 rounds, consuming the message-schedule words. -/
def sha1Rounds : Nat → Nat × Nat × Nat × Nat × Nat → List Nat → Nat × Nat × Nat × Nat × Nat
  | _, st, [] => st
  | i, (a, b, c, d, e), wi :: rest =>
    let temp := w32 (rotl 5 a + sha1F i b c d + e + sha1K i + wi)
    sha1Rounds (i + 1) (temp, a, rotl 30 b, c, d) rest

/-- One SHA-1 block compression over a 64-byte block. -/
def sha1Compress (st : Nat × Nat × Nat × Nat × Nat) (block : List Nat) :
    Nat × Nat × Nat × Nat × Nat :=
  let ws := extendW 64 (bytesToWords block)
  match st, sha1Rounds 0 st ws with
  | (h0, h1, h2, h3, h4), (a, b, c, d, e) =>
    (w32 (h0 + a), w32 (h1 + b), w32 (h2 + c), w32 (h3 + d), w32 (h4 + e))

/-- Big-endian bytes of a 32-bit word. -/
def wordBytesBE (n : Nat) : List Nat :=
  [n / 16777216 % 256, n / 65536 % 256, n / 256 % 256, n % 256]

/-- SHA-1 padding: `0x80`, zeros to 56 mod 64, then the 64-bit big-endian
bit length. -/
def sha1Pad (msg : List Nat) : List Nat :=
  let bitLen := 8 * msg.length
  msg ++ [0x80] ++ List.replicate ((119 - msg.length % 64) % 64) 0
    ++ [bitLen / 2 ^ 56 % 256, bitLen / 2 ^ 48 % 256, bitLen / 2 ^ 40 % 256,
        bitLen / 2 ^ 32 % 256, bitLen / 2 ^ 24 % 256, bitLen / 2 ^ 16 % 256,
        bitLen / 2 ^ 8 % 256, bitLen % 256]

/-- Process a padded message 64 bytes at a time (fuel-driven; callers pass
the padded length, which bounds the number of chunks). -/
def sha1Chunks : Nat → List Nat → Nat × Nat × Nat × Nat × Nat → Nat × Nat × Nat × Nat × Nat
  | 0, _, st => st
  | f + 1, bytes, st =>
    match bytes with
    | [] => st
    | _ => sha1Chunks f (bytes.drop 64) (sha1Compress st (bytes.take 64))

/-- SHA-1 of a byte list, as Go's `crypto/sha1`. -/
def sha1Bytes (msg : List Nat) : List Nat :=
  match sha1Chunks (sha1Pad msg).length (sha1Pad msg)
      (0x67452301, 0xEFCDAB89, 0x98BADCFE, 0x10325476, 0xC3D2E1F0) with
  | (h0, h1, h2, h3, h4) =>
    wordBytesBE h0 ++ wordBytesBE h1 ++ wordBytesBE h2 ++ wordBytesBE h3 ++ wordBytesBE h4

/-- HMAC-SHA1 as constructed by Go's `crypto/hmac` with a SHA-1 inner
hash: an over-long key is hashed, the key is zero-padded to the 64-byte
block size, and the digest is `H(opad ++ H(ipad ++ msg))`. -/
def hmacSha1 (key msg : List Nat) : List Nat :=
  let k1 := if 64 < key.length then sha1Bytes key else key
  let k2 := k1 ++ List.replicate (64 - k1.length) 0
  sha1Bytes ((k2.map (fun b => b ^^^ 0x5C)) ++ sha1Bytes ((k2.map (fun b => b ^^^ 0x36)) ++ msg))

/-- The sixteen lowercase hex digit characters, from `encoding/hex`'s
digit table. -/
def hexDigits : List Char := "0123456789abcdef".data

/-- The hex digit character for a value (taken mod 16). -/
def hexDigit (n : Nat) : Char := hexDigits.getD (n % 16) '0'

/-- Lowercase hex encoding of one byte: high nibble then low nibble. -/
def hexByte (b : Nat) : List Char := [hexDigit (b / 16), hexDigit b]

/-- Go `hex.EncodeToString`: lowercase hex of a byte list. -/
def hexEncodeLower (bs : List Nat) : String := String.mk ((bs.map hexByte).flatten)

/-- UTF-8 encoding of one character, as Go strings store text. -/
def utf8Bytes (c : Char) : List Nat :=
  let n := c.toNat
  if n < 128 then [n]
  else if n < 2048 then [192 + n / 64, 128 + n % 64]
  else if n < 65536 then [224 + n / 4096, 128 + n / 64 % 64, 128 + n % 64]
  else [240 + n / 262144, 128 + n / 4096 % 64, 128 + n / 64 % 64, 128 + n % 64]

/-- The bytes of a string (`[]byte(s)` in Go). -/
def strBytes (s : String) : List Nat := (s.data.map utf8Bytes).flatten

/-- Model of `func (ch *helper) getSignature(message, key string) string`
of `client.go`: the lowercase-hex HMAC-SHA1 of the message keyed by the
key. -/
def getSignature (message key : String) : String :=
  hexEncodeLower (hmacSha1 (strBytes key) (strBytes message))

/-! ### doWithParams: path normalization, Date header, auth -/

/-- Join path components dropping empty, `.` and (rooted) `..` pieces:
the component stack of Go `path.Clean` on a rooted path. -/
def cleanStack : List (List Char) → List (List Char) → List (List Char)
  | [], stack => stack.reverse
  | p :: rest, stack =>
    if p = [] ∨ p = ['.'] then cleanStack rest stack
    else if p = ['.', '.'] then cleanStack rest stack.tail
    else cleanStack rest (p :: stack)

/-- Join cleaned components with single `/` separators. -/
def joinComps : List (List Char) → List Char
  | [] => []
  | [c] => c
  | c :: rest => c ++ '/' :: joinComps rest

/-- Go `path.Join("/", reqPath)` (line `reqPath = path.Join("/", reqPath)`
of `client.go`): the cleaned rooted path, beginning with a single `/`. -/
def pathJoinRoot (p : String) : String :=
  String.mk ('/' :: joinComps (cleanStack (splitChar '/' p.data []) []))

/-- Zero-padded decimal rendering of a nonnegative number to a width. -/
def padNat (width n : Nat) : String :=
  String.mk (List.replicate (width - (toString n).length) '0') ++ toString n

/-- Civil UTC date-time fields from unix seconds (days-from-epoch to
year/month/day by the standard Gregorian era computation). -/
def civilFromUnix (t : Int) : Int × Int × Int × Int × Int × Int :=
  let days := t.fdiv 86400
  let secs := (t.emod 86400).toNat
  let z := days + 719468
  let era := z.fdiv 146097
  let doe := z - era * 146097
  let yoe := (doe - doe / 1460 + doe / 36524 - doe / 146096) / 365
  let y := yoe + era * 400
  let doy := doe - (365 * yoe + yoe / 4 - yoe / 100)
  let mp := (5 * doy + 2) / 153
  let d := doy - (153 * mp + 2) / 5 + 1
  let m := mp + (if mp < 10 then 3 else -9)
  (y + (if m ≤ 2 then 1 else 0), m, d, (secs / 3600 : Nat), (secs / 60 % 60 : Nat), (secs % 60 : Nat))

/-- Go `t.UTC().Format(time.RFC3339)` for whole-second instants:
`YYYY-MM-DDTHH:MM:SSZ`. -/
def rfc3339UTC (t : Int) : String :=
  match civilFromUnix t with
  | (y, m, d, hh, mm, ss) =>
    padNat 4 y.toNat ++ "-" ++ padNat 2 m.toNat ++ "-" ++ padNat 2 d.toNat ++ "T"
      ++ padNat 2 hh.toNat ++ ":" ++ padNat 2 mm.toNat ++ ":" ++ padNat 2 ss.toNat ++ "Z"

/-- The outgoing HTTP request as `doWithParams` constructs it. -/
structure HttpReq where
  method : String
  url : String
  queryParams : List (String × String)
  headers : List (String × String)
  basicAuthUser : String
  basicAuthPass : String
  body : Option String
deriving DecidableEq

/-- The canonical signing message of `doWithParams`:
`fmt.Sprintf("%s %s %d", reqMethod, reqPath, reqTimestamp.Unix())`. -/
def canonicalRequest (method pathJoined : String) (unixTs : Int) : String :=
  method ++ " " ++ pathJoined ++ " " ++ toString unixTs

/-- Model of `func (ch *helper) doWithParams` of `client.go` up to the
network call: normalize the path, sign the canonical message with the
configured secret, and set the JSON content headers, the RFC3339 UTC
`Date` header from the same instant, and basic auth (auth key as user,
signature as password).  The current time is an explicit parameter
(`time.Now()` in Go). -/
def buildRequest (h : Helper) (now : Int) (method reqPath : String)
    (params : List (String × String)) (body : Option String) : HttpReq :=
  let p := pathJoinRoot reqPath
  { method := method
    url := h.apiEndpoint ++ p
    queryParams := params
    headers := [("Content-Type", "application/json"), ("Accept", "application/json"),
                ("Date", rfc3339UTC now)]
    basicAuthUser := h.authKey
    basicAuthPass := getSignature (canonicalRequest method p now) h.authSecret
    body := body }

/-- Outcome of `http.Client.Do`: a transport error (nil response) or a
response. -/
inductive TransportResult where
  | err
  | ok (resp : HttpResponse)
deriving DecidableEq

/-- The HTTP transport for the mutation operations, abstracted as a
function from the built request to the round-trip outcome. -/
def Transport := HttpReq → TransportResult

/-- The `(resp, err)` pair `helper.do`/`doWithParams` hands back to its
caller: a transport failure yields a nil response and an error. -/
def doRequest (h : Helper) (tr : Transport) (now : Int) (method reqPath : String)
    (params : List (String × String)) (body : Option String) :
    Option HttpResponse × Option ErrKind :=
  match tr (buildRequest h now method reqPath params body) with
  | .err => (none, some .transport)
  | .ok resp => (some resp, none)

/-- Model of `func (d *domainAction) Delete(ID int) ApiError` of `dns.go`:
`return apiErr(d.h.do(http.MethodDelete, fmt.Sprintf("v2/service/%d/dns/record/%d", ...), nil))`.
No status-code inspection happens on this path. -/
def deleteRecord (h : Helper) (tr : Transport) (now : Int) (svcID recordID : Int) :
    Option ApiErrorVal :=
  match doRequest h tr now "DELETE"
      ("v2/service/" ++ toString svcID ++ "/dns/record/" ++ toString recordID) [] none with
  | (resp, err) => apiErr resp err

/-! ### Concrete servers and inputs used by the claim witnesses and
counterexamples -/

/-- A sample record. -/
def rec0 : DnsRecord := ⟨none, none, "a", none, 300, none, none, none⟩

/-- A helper configured with a maximum page count of 2. -/
def h2 : Helper := ⟨"", "", "", 2⟩

/-- A page that reports `currentPage 1 < totalPages 2` and no
`nextPageUrl` — a numeric continuation signal. -/
def collStuck : DnsRecordPaginatedCollection := ⟨some 1, some 2, none, none, none, [rec0]⟩

/-- A server that answers every request with `collStuck`: it reports a
continuation signal on every page, forever. -/
def svrStuck : Server := fun _ => .resp 200 (.coll collStuck)

/-- A page whose continuation signal is the locator `"/?page=2"`. -/
def collNext : DnsRecordPaginatedCollection := ⟨none, none, none, none, some "/?page=2", [rec0]⟩

/-- A server that answers every request with `collNext`: a non-empty
next-page locator on every page, forever. -/
def svrNext : Server := fun _ => .resp 200 (.coll collNext)

/-- A page whose locator holds two query parameters. -/
def collMulti : DnsRecordPaginatedCollection := ⟨none, none, none, none, some "/?a=1&b=2", []⟩

/-- A server answering every request with `collMulti`. -/
def svrMulti : Server := fun _ => .resp 200 (.coll collMulti)

/-- A server whose transport always fails (connection refused). -/
def svrDown : Server := fun _ => .transportErr

/-- A transport that answers every request with a bare 404 response and
no transport error, as Go's `http.Client.Do` does for any delivered
response. -/
def tr404 : Transport := fun _ => .ok ⟨404⟩

/-- One key/value pair fed from a parsed continuation locator: the head
pair when its key and value are non-empty, nothing otherwise (the single
map entry examined before the unconditional `break` in `ListPaginated`,
determinized to first-occurrence order). -/
def fedPair : List (String × String) → List (String × String)
  | [] => []
  | (k, v) :: _ => if k ≠ "" ∧ v ≠ "" then [(k, v)] else []

/-- The set of continuation states reachable against `svrNext`: the
initial state and the state fed back from its constant locator. -/
def Pnext : String → Int → Prop := fun u p => (u = "" ∧ p = 0) ∨ (u = "page=2" ∧ p = 0)

/-- The parameters built for `List("CNAME", "host1")` when requesting
page 2 numerically. -/
def paramsCNAME : List (String × String) :=
  [("descending", "false"), ("sortBy", "name"), ("filters[type]", "[\"CNAME\"]"),
   ("filters[name]", "host1"), ("page", "2")]

/-! ## Supporting lemmas -/

/-- The numeric continuation arm never produces a locator. -/
theorem contNumeric_fst (ret : DnsRecordPaginatedCollection) : (contNumeric ret).1 = "" := by
  unfold contNumeric
  rcases ret.currentPage with _ | cp <;> rcases ret.totalPages with _ | tp <;> simp
  split <;> rfl

/-- The continuation decision produces at most one signal. -/
theorem contDecision_exclusive (ret : DnsRecordPaginatedCollection) :
    (contDecision ret).1 = "" ∨ (contDecision ret).2 = 0 := by
  unfold contDecision
  rcases ret.nextPageUrl with _ | s
  · exact Or.inl (contNumeric_fst ret)
  · by_cases hs : s ≠ ""
    · simp [hs]
    · simp [hs]
      exact Or.inl (contNumeric_fst ret)

/-- The error the post-loop check of `List` can attach is exactly the
page-limit error, or nothing. -/
theorem listFinish_err (N pc : Int) (nu : String) (np : Int) (acc : List DnsRecord)
    (pages : List (List DnsRecord)) :
    (listFinish N pc nu np acc pages).err = none ∨
      (listFinish N pc nu np acc pages).err = some ⟨.pageLimit N, none⟩ := by
  unfold listFinish
  split
  · exact Or.inr rfl
  · exact Or.inl rfl

/-- Any error `listLoop` reports is either the synthetic page-limit error
or an error some fetch returned, and in the latter case the accumulated
records are discarded. -/
theorem listLoop_err_origin (N : Int)
    (step : String → Int → List DnsRecord × String × Int × Option ApiErrorVal) :
    ∀ (fuel : Nat) (pc : Int) (nu : String) (np : Int) (acc : List DnsRecord)
      (pages : List (List DnsRecord)) (e : ApiErrorVal),
      (listLoop N step fuel pc nu np acc pages).err = some e →
      e = ⟨.pageLimit N, none⟩ ∨
        ((listLoop N step fuel pc nu np acc pages).records = [] ∧
          ∃ u p, (step u p).2.2.2 = some e) := by
  intro fuel
  induction fuel with
  | zero =>
    intro pc nu np acc pages e h
    rcases listFinish_err N pc nu np acc pages with hf | hf
    · rw [show listLoop N step 0 pc nu np acc pages = listFinish N pc nu np acc pages from rfl] at h
      rw [hf] at h
      exact absurd h (by simp)
    · rw [show listLoop N step 0 pc nu np acc pages = listFinish N pc nu np acc pages from rfl] at h
      rw [hf] at h
      exact Or.inl (Option.some.inj h).symm
  | succ fuel ih =>
    intro pc nu np acc pages e h
    by_cases hc : (pc = 1 ∨ nu ≠ "" ∨ np > 0) ∧ pc ≤ N
    · rw [listLoop, if_pos hc] at h
      rcases hs : step nu np with ⟨recs, nu2, np2, e2⟩
      rw [hs] at h
      cases e2 with
      | some e0 =>
        right
        constructor
        · rw [listLoop, if_pos hc, hs]
        · simp at h
          exact ⟨nu, np, by rw [hs, h]⟩
      | none =>
        have := ih (pc + 1) nu2 np2 (acc ++ recs) (pages ++ [recs]) e h
        rcases this with h1 | ⟨h1, h2⟩
        · exact Or.inl h1
        · right
          refine ⟨?_, h2⟩
          rw [listLoop, if_pos hc, hs]
          exact h1
    · rw [listLoop, if_neg hc] at h
      rcases listFinish_err N pc nu np acc pages with hf | hf
      · rw [hf] at h; exact absurd h (by simp)
      · rw [hf] at h
        exact Or.inl (Option.some.inj h).symm

/-- Under an invariant `P` on the continuation state that guarantees every
fetch succeeds and signals a continuation the post-loop check detects
(non-empty locator, or a numeric next page above the limit), the loop runs
to the page limit and reports the page-limit error with all fetched pages
accumulated. -/
theorem listLoop_limit (N : Int)
    (step : String → Int → List DnsRecord × String × Int × Option ApiErrorVal)
    (P : String → Int → Prop)
    (hstep : ∀ u p, P u p → (step u p).2.2.2 = none ∧
      ((step u p).2.1 ≠ "" ∨ (step u p).2.2.1 > N) ∧ P (step u p).2.1 (step u p).2.2.1)
    (hN : 1 ≤ N) :
    ∀ (fuel : Nat) (pc : Int) (nu : String) (np : Int) (acc : List DnsRecord)
      (pages : List (List DnsRecord)),
      1 ≤ pc → pc ≤ N + 1 → (N + 2 : Int) ≤ pc + fuel → P nu np →
      (pc = 1 ∨ (nu ≠ "" ∨ np > N)) →
      ∃ extra : List (List DnsRecord), extra.length = (N + 1 - pc).toNat ∧
        listLoop N step fuel pc nu np acc pages =
          ⟨acc ++ extra.flatten, some ⟨.pageLimit N, none⟩,
            pages.length + (N + 1 - pc).toNat, pages ++ extra⟩ := by
  intro fuel
  induction fuel with
  | zero =>
    intro pc nu np acc pages h1 h2 h3 _ _
    exfalso
    omega
  | succ fuel ih =>
    intro pc nu np acc pages h1 h2 h3 hP hsig
    by_cases hpc : pc ≤ N
    · have hcond : (pc = 1 ∨ nu ≠ "" ∨ np > 0) ∧ pc ≤ N := by
        refine ⟨?_, hpc⟩
        rcases hsig with h | h | h
        · exact Or.inl h
        · exact Or.inr (Or.inl h)
        · exact Or.inr (Or.inr (by omega))
      rcases hstep nu np hP with ⟨he, hsig2, hP2⟩
      rcases hs : step nu np with ⟨recs, nu2, np2, e2⟩
      rw [hs] at he hsig2 hP2
      simp only at he hsig2 hP2
      subst he
      rcases ih (pc + 1) nu2 np2 (acc ++ recs) (pages ++ [recs])
          (by omega) (by omega) (by omega) hP2 (Or.inr hsig2) with ⟨extra, hlen, hres⟩
      refine ⟨recs :: extra, by simp only [List.length_cons, hlen]; omega, ?_⟩
      rw [listLoop, if_pos hcond, hs]
      show listLoop N step fuel (pc + 1) nu2 np2 (acc ++ recs) (pages ++ [recs]) = _
      rw [hres]
      congr 1
      · simp
      · simp only [List.length_append, List.length_cons, List.length_nil, hlen]
        omega
      · simp
    · have hpc1 : pc = N + 1 := by omega
      have hsig2 : nu ≠ "" ∨ np > N := by
        rcases hsig with h | h
        · exfalso; omega
        · exact h
      have hcond : ¬ ((pc = 1 ∨ nu ≠ "" ∨ np > 0) ∧ pc ≤ N) := by
        intro hcontra
        omega
      refine ⟨[], by rw [hpc1]; simp, ?_⟩
      rw [listLoop, if_neg hcond]
      unfold listFinish
      rw [if_pos ⟨by omega, hsig2⟩]
      simp [apiErr, hpc1]

/-! ## Claim theorems -/

/-- C9: `ListAll()` returns exactly the same record sequence and the same
error as `List` called with an empty type filter and an empty name filter
— it is literally `List("", "")`. -/
theorem claim_C9 (h : Helper) (svr : Server) :
    listAllRecords h svr = listRecords h svr "" "" := rfl

/-- C10: a successful `ListPage` call returns at most one continuation
signal (never both a non-empty locator and a non-zero next page number),
and a failing `ListPage` call returns nil records, an empty locator and a
zero next page number. -/
theorem claim_C10 (svr : Server) (recType recName recPageUrl : String) (recPage : Int) :
    ((listPage svr recType recName recPageUrl recPage).2.1 = "" ∨
      (listPage svr recType recName recPageUrl recPage).2.2.1 = 0) ∧
    (∀ e, (listPage svr recType recName recPageUrl recPage).2.2.2 = some e →
      (listPage svr recType recName recPageUrl recPage).1 = [] ∧
      (listPage svr recType recName recPageUrl recPage).2.1 = "" ∧
      (listPage svr recType recName recPageUrl recPage).2.2.1 = 0) := by
  unfold listPage
  rcases hlp : listPaginated svr recType recName recPageUrl recPage with ⟨ret, e⟩
  cases e with
  | some e0 => exact ⟨Or.inl rfl, fun e _ => ⟨rfl, rfl, rfl⟩⟩
  | none =>
    refine ⟨contDecision_exclusive ret, fun e he => ?_⟩
    exact absurd he (by simp)

/-- C10 witness: on a transport failure, `ListPage` concretely returns
nil records, an empty locator, a zero page number and the error. -/
theorem claim_C10_witness :
    (listPage svrDown "" "" "" 0).2.2.2 = some ⟨.transport, none⟩ ∧
    (listPage svrDown "" "" "" 0).1 = [] ∧
    (listPage svrDown "" "" "" 0).2.1 = "" ∧
    (listPage svrDown "" "" "" 0).2.2.1 = 0 :=
  ⟨by decide, (claim_C10 svrDown "" "" "" 0).2 ⟨.transport, none⟩ (by decide)⟩

/-- C6: serializing a `DnsRecord` whose optional fields are all absent
emits exactly `name` and `ttl`; in every serialization `name` and `ttl`
are emitted and each optional field's key appears exactly when the field
is set (absent fields are omitted entirely, never emitted as null or
zero). -/
theorem claim_C6 :
    (∀ (n : String) (t : Int),
      dnsRecordJson ⟨none, none, n, none, t, none, none, none⟩ =
        [("name", JsonVal.str n), ("ttl", JsonVal.num t)]) ∧
    (∀ r : DnsRecord,
      ("name", JsonVal.str r.name) ∈ dnsRecordJson r ∧
      ("ttl", JsonVal.num r.ttl) ∈ dnsRecordJson r ∧
      (dnsRecordJson r).map Prod.fst =
        (if r.type.isSome then ["type"] else []) ++ (if r.id.isSome then ["id"] else [])
          ++ ["name"] ++ (if r.content.isSome then ["content"] else []) ++ ["ttl"]
          ++ (if r.priority.isSome then ["priority"] else [])
          ++ (if r.port.isSome then ["port"] else [])
          ++ (if r.weight.isSome then ["weight"] else [])) := by
  constructor
  · intro n t
    rfl
  · intro r
    rcases r with ⟨t, i, nm, c, tt, pr, po, w⟩
    rcases t with _ | t <;> rcases i with _ | i <;> rcases c with _ | c <;>
      rcases pr with _ | pr <;> rcases po with _ | po <;> rcases w with _ | w <;>
      simp [dnsRecordJson, optField]

/-- C3: the code evaluated at the claim's scenario.  A transport delivering
a 404 response with no transport error makes `Delete` return a nil
`ApiError` — the status code is never inspected on the `Delete` path —
contradicting the claim that a non-nil error reporting status 404 is
returned. -/
theorem claim_C3 :
    deleteRecord h2 tr404 0 1 2 = none ∧
    tr404 (buildRequest h2 0 "DELETE" "v2/service/1/dns/record/2" [] none) =
      .ok ⟨404⟩ :=
  ⟨rfl, rfl⟩

/-- SHA-1 test vector: the digest of `"abc"`. -/
theorem sha1_test_vector :
    hexEncodeLower (sha1Bytes (strBytes "abc")) = "a9993e364706816aba3e25717850c26c9cd0d89d" := by
  decide

/-- HMAC-SHA1 test vector (RFC 2202, case 2), through the Signer. -/
theorem hmac_test_vector :
    getSignature "what do ya want for nothing?" "Jefe" =
      "effcdf6ae5eb2fa2d27416d5f184df9c259a7c79" := by
  decide

/-- C5: when a page fetch fails, the loop stops at once, discards all
records accumulated so far (returns nil) and propagates that fetch's
error; conversely any non-page-limit error `List` reports came from a
fetch and is accompanied by nil records. -/
theorem claim_C5 (h : Helper) (svr : Server) (recType recName : String) :
    (∀ (fuel : Nat) (pc : Int) (nu : String) (np : Int) (acc : List DnsRecord)
        (pages : List (List DnsRecord)) (recs : List DnsRecord) (nu2 : String) (np2 : Int)
        (e : ApiErrorVal),
      ((pc = 1 ∨ nu ≠ "" ∨ np > 0) ∧ pc ≤ h.maxPages) →
      listPage svr recType recName nu np = (recs, nu2, np2, some e) →
      listLoop h.maxPages (fun u p => listPage svr recType recName u p) (fuel + 1) pc nu np acc pages
        = ⟨[], some e, pages.length + 1, pages⟩) ∧
    (∀ e : ApiErrorVal, (listRecords h svr recType recName).err = some e →
      (∀ N, e.err ≠ ErrKind.pageLimit N) →
      (listRecords h svr recType recName).records = [] ∧
      ∃ u p, (listPage svr recType recName u p).2.2.2 = some e) := by
  constructor
  · intro fuel pc nu np acc pages recs nu2 np2 e hcond hstep
    rw [listLoop, if_pos hcond]
    simp only [hstep]
  · intro e he hnotlimit
    unfold listRecords at he ⊢
    rcases listLoop_err_origin h.maxPages (fun u p => listPage svr recType recName u p)
        (h.maxPages.toNat + 1) 1 "" 0 [] [] e he with h1 | ⟨h1, h2⟩
    · exact absurd (by rw [h1]) (hnotlimit h.maxPages)
    · exact ⟨h1, h2⟩

/-- C5 witness: against a server whose transport always fails, the first
fetch's error is propagated with nil records. -/
theorem claim_C5_witness :
    listLoop (2 : Int) (fun u p => listPage svrDown "" "" u p) 1 1 "" 0 [] []
        = ⟨[], some ⟨.transport, none⟩, 1, []⟩ ∧
    (listRecords h2 svrDown "" "").records = [] ∧
    ∃ u p, (listPage svrDown "" "" u p).2.2.2 = some ⟨.transport, none⟩ :=
  ⟨(claim_C5 h2 svrDown "" "").1 0 1 "" 0 [] [] [] "" 0 ⟨.transport, none⟩
      ⟨Or.inl rfl, by decide⟩ (by decide),
    (claim_C5 h2 svrDown "" "").2 ⟨.transport, none⟩ (by decide)
      (fun N hN => by exact ErrKind.noConfusion hN)⟩

/-- C1 counterexample: with the maximum page count configured to 2 and a
server that reports a continuation signal on every page (`svrStuck` is a
constant function: every response carries `currentPage 1 < totalPages 2`),
`List` performs exactly 2 fetches and returns the 2 pages' records — but
with a nil error, not the claimed non-nil page-limit error, because the
post-loop check compares the next page number (2) against `maxPages` (2)
instead of detecting that a continuation signal is still present. -/
theorem claim_C1_counterexample :
    svrStuck [] = ServerResult.resp 200 (RespBody.coll collStuck) ∧
    collStuck.currentPage = some 1 ∧ collStuck.totalPages = some 2 ∧
    h2.maxPages = 2 ∧
    listRecords h2 svrStuck "" "" = ⟨[rec0, rec0], none, 2, [[rec0], [rec0]]⟩ :=
  ⟨rfl, rfl, rfl, rfl, by decide⟩

/-- C1 (amended): for every maximum page count `N ≥ 1` and every server
behaviour that on every reachable continuation state succeeds and reports
a continuation signal the post-loop check detects — a non-empty next-page
locator, or a numeric next page exceeding `N` — `List` performs exactly
`N` page fetches, returns the records accumulated from those `N` pages,
and returns the non-nil page-limit error.  (The unamended claim, which
also admits numeric signals `currentPage < totalPages` whose computed next
page stays at most `N`, is refuted by `claim_C1_counterexample`.) -/
theorem claim_C1 (h : Helper) (svr : Server) (recType recName : String)
    (P : String → Int → Prop)
    (hN : 1 ≤ h.maxPages) (hinit : P "" 0)
    (hstep : ∀ u p, P u p →
      (listPage svr recType recName u p).2.2.2 = none ∧
      ((listPage svr recType recName u p).2.1 ≠ "" ∨
        (listPage svr recType recName u p).2.2.1 > h.maxPages) ∧
      P (listPage svr recType recName u p).2.1 (listPage svr recType recName u p).2.2.1) :
    ∃ pages : List (List DnsRecord),
      pages.length = h.maxPages.toNat ∧
      listRecords h svr recType recName =
        ⟨pages.flatten, some ⟨.pageLimit h.maxPages, none⟩, h.maxPages.toNat, pages⟩ := by
  unfold listRecords
  rcases listLoop_limit h.maxPages (fun u p => listPage svr recType recName u p) P
      hstep hN (h.maxPages.toNat + 1) 1 "" 0 [] []
      (by omega) (by omega) (by omega) hinit (Or.inl rfl) with ⟨extra, hlen, hres⟩
  refine ⟨extra, by omega, ?_⟩
  rw [hres]
  congr 1
  simp

/-- C2 counterexample: the claim says a non-empty locator, stripped, is
"fed as the literal query parameters of the next request" — but when the
locator parses to more than one key/value pair, `ListPaginated` adds only
a single pair (the `for ... range` loop breaks unconditionally after one
map entry), so the pair `("b", "2")` of the locator `"/?a=1&b=2"` never
reaches the next request's parameters. -/
theorem claim_C2_counterexample :
    (listPage svrMulti "" "" "" 0).2.1 = "a=1&b=2" ∧
    parseQuery "a=1&b=2" = .ok [("a", "1"), ("b", "2")] ∧
    listPaginatedParams "" "" "a=1&b=2" 0 =
      .ok [("descending", "false"), ("sortBy", "name"), ("a", "1")] ∧
    ("b", "2") ∉ [("descending", "false"), ("sortBy", "name"), ("a", "1")] :=
  ⟨by decide, by decide, by decide, by decide⟩

/-- C2 (amended): the continuation decision after a successful page fetch
is as claimed — a present non-empty next-page locator, stripped of all
leading `/` and `?`, takes priority; otherwise `currentPage + 1` when
`currentPage < totalPages` are both present; otherwise no continuation —
but of the parsed locator only one key/value pair (the first non-empty
entry examined; an arbitrary map entry in Go, determinized here to first
occurrence) is fed into the next request's parameters, not the whole
parameter set. -/
theorem claim_C2 (svr : Server) (recType recName recPageUrl : String) (recPage : Int) :
    (∀ ret, listPaginated svr recType recName recPageUrl recPage = (ret, none) →
      (∀ s, ret.nextPageUrl = some s → s ≠ "" →
        listPage svr recType recName recPageUrl recPage =
          (ret.data, trimLeftSlashQuestion s, 0, none)) ∧
      ((ret.nextPageUrl = none ∨ ret.nextPageUrl = some "") →
        (∀ cp tp, ret.currentPage = some cp → ret.totalPages = some tp → cp < tp →
          listPage svr recType recName recPageUrl recPage = (ret.data, "", cp + 1, none)) ∧
        ((ret.currentPage = none ∨ ret.totalPages = none ∨
            ∃ cp tp, ret.currentPage = some cp ∧ ret.totalPages = some tp ∧ ¬ cp < tp) →
          listPage svr recType recName recPageUrl recPage = (ret.data, "", 0, none)))) ∧
    (∀ pairs, recPageUrl ≠ "" → parseQuery recPageUrl = .ok pairs →
      listPaginatedParams recType recName recPageUrl recPage = .ok
        (baseParams recType recName ++ fedPair pairs ++
          (if fedPair pairs = [] ∧ recPage > 1 then [("page", toString recPage)] else []))) := by
  constructor
  · intro ret hret
    have hlp : listPage svr recType recName recPageUrl recPage =
        (ret.data, (contDecision ret).1, (contDecision ret).2, none) := by
      unfold listPage
      rw [hret]
    constructor
    · intro s hs hserr
      rw [hlp]
      unfold contDecision
      rw [hs]
      simp [hserr]
    · intro hnone
      constructor
      · intro cp tp hcp htp hlt
        have hnum : contNumeric ret = ("", cp + 1) := by
          unfold contNumeric
          simp [hcp, htp, hlt]
        have hdec : contDecision ret = ("", cp + 1) := by
          unfold contDecision
          rcases hnone with hh | hh
          · rw [hh]; exact hnum
          · rw [hh]; simpa using hnum
        rw [hlp, hdec]
      · intro hno
        have hnum : contNumeric ret = ("", 0) := by
          unfold contNumeric
          rcases hno with hh | hh | ⟨cp, tp, hcp, htp, hnlt⟩
          · simp [hh]
          · rcases hc : ret.currentPage with _ | cp2 <;> simp [hc, hh]
          · simp [hcp, htp, hnlt]
        have hdec : contDecision ret = ("", 0) := by
          unfold contDecision
          rcases hnone with hh | hh
          · rw [hh]; exact hnum
          · rw [hh]; simpa using hnum
        rw [hlp, hdec]
  · intro pairs hu hparse
    unfold listPaginatedParams
    rw [if_pos hu, hparse]
    cases pairs with
    | nil =>
      show Except.ok (if recPage > 1
          then baseParams recType recName ++ [("page", toString recPage)]
          else baseParams recType recName) = _
      simp only [fedPair]
      split_ifs <;> simp_all
    | cons kv rest =>
      rcases kv with ⟨k, v⟩
      show (if k ≠ "" ∧ v ≠ "" then Except.ok (baseParams recType recName ++ [(k, v)])
          else Except.ok (if recPage > 1
            then baseParams recType recName ++ [("page", toString recPage)]
            else baseParams recType recName)) = _
      by_cases hkv : k ≠ "" ∧ v ≠ ""
      · rw [if_pos hkv]
        simp [fedPair, hkv]
      · rw [if_neg hkv]
        simp only [fedPair, if_neg hkv]
        split_ifs <;> simp_all

/-- C2 witness: against the locator-returning server, the first page's
continuation is the stripped locator, and the next request's parameters
are the base parameters plus the single fed pair. -/
theorem claim_C2_witness :
    listPage svrNext "" "" "" 0 = (collNext.data, trimLeftSlashQuestion "/?page=2", 0, none) ∧
    listPaginatedParams "" "" "page=2" 0 = .ok
      (baseParams "" "" ++ fedPair [("page", "2")] ++
        (if fedPair [("page", "2")] = [] ∧ (0 : Int) > 1
          then [("page", toString (0 : Int))] else [])) :=
  ⟨((claim_C2 svrNext "" "" "" 0).1 collNext (by decide)).1 "/?page=2" (by decide) (by decide),
    (claim_C2 svrNext "" "" "page=2" 0).2 [("page", "2")] (by decide) (by decide)⟩

/-- Every parameter list `ListPaginated` builds is the base parameters
followed by a tail, and the tail is exactly the optional explicit page
parameter whenever no continuation locator was supplied. -/
theorem listPaginatedParams_shape (recType recName recPageUrl : String) (recPage : Int)
    (ps : List (String × String))
    (hps : listPaginatedParams recType recName recPageUrl recPage = .ok ps) :
    ∃ tail, ps = baseParams recType recName ++ tail ∧
      (recPageUrl = "" →
        tail = (if recPage > 1 then [("page", toString recPage)] else [])) := by
  unfold listPaginatedParams at hps
  by_cases hu : recPageUrl ≠ ""
  · rw [if_pos hu] at hps
    cases hq : parseQuery recPageUrl with
    | error err =>
      rw [hq] at hps
      exact absurd hps (by simp)
    | ok pairs =>
      rw [hq] at hps
      cases pairs with
      | nil =>
        have hps2 : Except.ok (if recPage > 1
            then baseParams recType recName ++ [("page", toString recPage)]
            else baseParams recType recName) = Except.ok ps := hps
        refine ⟨if recPage > 1 then [("page", toString recPage)] else [], ?_,
          fun hh => absurd hh hu⟩
        simp only [Except.ok.injEq] at hps2
        rw [← hps2]
        split_ifs <;> simp
      | cons kv rest =>
        rcases kv with ⟨k, v⟩
        have hps2 : (if k ≠ "" ∧ v ≠ ""
            then Except.ok (baseParams recType recName ++ [(k, v)])
            else Except.ok (if recPage > 1
              then baseParams recType recName ++ [("page", toString recPage)]
              else baseParams recType recName)) = Except.ok ps := hps
        by_cases hkv : k ≠ "" ∧ v ≠ ""
        · rw [if_pos hkv] at hps2
          simp only [Except.ok.injEq] at hps2
          exact ⟨[(k, v)], hps2.symm, fun hh => absurd hh hu⟩
        · rw [if_neg hkv] at hps2
          simp only [Except.ok.injEq] at hps2
          refine ⟨if recPage > 1 then [("page", toString recPage)] else [], ?_,
            fun hh => absurd hh hu⟩
          rw [← hps2]
          split_ifs <;> simp
  · push_neg at hu
    rw [if_neg (by simp [hu])] at hps
    simp only [Except.ok.injEq] at hps
    refine ⟨if recPage > 1 then [("page", toString recPage)] else [], ?_, fun _ => rfl⟩
    rw [← hps]
    split_ifs <;> simp

/-- C4 counterexample: the claim says a page request carries
`filters[type]` exactly when a non-empty type filter was requested — but
a server-supplied continuation locator is fed through verbatim, so a
request built with no type filter can still carry a `filters[type]`
parameter injected by the locator. -/
theorem claim_C4_counterexample :
    listPaginatedParams "" "" "filters[type]=x" 0 =
      .ok [("descending", "false"), ("sortBy", "name"), ("filters[type]", "x")] ∧
    ("filters[type]", "x") ∈
      [("descending", "false"), ("sortBy", "name"), ("filters[type]", "x")] :=
  ⟨by decide, by decide⟩

/-- C4 (amended): every page request built by the listing flow carries
`descending=false` and `sortBy=name`; the flow itself adds `filters[type]`
(the JSON array literal containing the type string) whenever a non-empty
type filter was requested and `filters[name]` whenever a non-empty name
filter was requested; and whenever no continuation locator is supplied
(the first request, and every numeric continuation) the filter parameters
appear exactly when requested and the explicit page parameter appears
exactly when the page number exceeds 1.  (When a non-empty server-supplied
locator is present, one pair from it is fed through verbatim and can carry
any key, which is what refutes the unamended "exactly when" —
`claim_C4_counterexample`.) -/
theorem claim_C4 (recType recName recPageUrl : String) (recPage : Int)
    (ps : List (String × String))
    (hps : listPaginatedParams recType recName recPageUrl recPage = .ok ps) :
    ("descending", "false") ∈ ps ∧ ("sortBy", "name") ∈ ps ∧
    (recType ≠ "" → ("filters[type]", typeFilterVal recType) ∈ ps) ∧
    (recName ≠ "" → ("filters[name]", recName) ∈ ps) ∧
    (recPageUrl = "" →
      (recType = "" → ∀ v, ("filters[type]", v) ∉ ps) ∧
      (recName = "" → ∀ v, ("filters[name]", v) ∉ ps) ∧
      (recPage > 1 → ("page", toString recPage) ∈ ps) ∧
      (¬ recPage > 1 → ∀ v, ("page", v) ∉ ps)) := by
  rcases listPaginatedParams_shape recType recName recPageUrl recPage ps hps with
    ⟨tail, hshape, htail⟩
  subst hshape
  refine ⟨by simp [baseParams], by simp [baseParams], ?_, ?_, ?_⟩
  · intro ht
    simp [baseParams, ht]
  · intro hn
    simp [baseParams, hn]
  · intro hu
    rw [htail hu]
    refine ⟨?_, ?_, ?_, ?_⟩
    · intro ht0 v
      subst ht0
      simp [baseParams, typeFilterVal]
    · intro hn0 v
      subst hn0
      simp [baseParams, typeFilterVal]
    · intro hp
      simp [baseParams, hp]
    · intro hp v
      simp [baseParams, hp]

/-- C4 witness: `List("CNAME", "host1")` requesting page 2 numerically
carries the fixed sort, both filters and the explicit page parameter. -/
theorem claim_C4_witness :
    ("descending", "false") ∈ paramsCNAME ∧ ("sortBy", "name") ∈ paramsCNAME ∧
    ("filters[type]", typeFilterVal "CNAME") ∈ paramsCNAME ∧
    ("filters[name]", "host1") ∈ paramsCNAME ∧
    ("page", toString (2 : Int)) ∈ paramsCNAME := by
  have hc4 := claim_C4 "CNAME" "host1" "" 2 paramsCNAME (by decide)
  exact ⟨hc4.1, hc4.2.1, hc4.2.2.1 (by decide), hc4.2.2.2.1 (by decide),
    (hc4.2.2.2.2 rfl).2.2.1 (by decide)⟩

/-- The SHA-1 digest always has 20 bytes. -/
theorem sha1Bytes_length (msg : List Nat) : (sha1Bytes msg).length = 20 := by
  unfold sha1Bytes
  rcases sha1Chunks (sha1Pad msg).length (sha1Pad msg)
      (0x67452301, 0xEFCDAB89, 0x98BADCFE, 0x10325476, 0xC3D2E1F0) with ⟨h0, h1, h2, h3, h4⟩
  simp [wordBytesBE]

/-- The HMAC-SHA1 digest always has 20 bytes. -/
theorem hmacSha1_length (key msg : List Nat) : (hmacSha1 key msg).length = 20 := by
  unfold hmacSha1
  exact sha1Bytes_length _

/-- Every hex digit character is one of the sixteen lowercase table
entries. -/
theorem hexDigit_mem (n : Nat) : hexDigit n ∈ hexDigits := by
  unfold hexDigit
  have h16 : n % 16 < 16 := Nat.mod_lt _ (by norm_num)
  revert h16
  generalize n % 16 = m
  intro h16
  interval_cases m <;> decide

/-- Hex encoding yields two characters per byte. -/
theorem hexEncodeLower_length (bs : List Nat) : (hexEncodeLower bs).length = 2 * bs.length := by
  unfold hexEncodeLower
  have hs : ∀ l : List Char, (String.mk l).length = l.length := fun l => rfl
  rw [hs]
  induction bs with
  | nil => rfl
  | cons b t ih =>
    simp only [List.map_cons, List.flatten_cons, List.length_append, ih, List.length_cons]
    simp [hexByte]
    omega

/-- C7: the Signer returns exactly the lowercase-hex encoding of the
HMAC-SHA1 of the message keyed by the secret; the result is a pure
function of the two inputs, 40 characters long, made only of the sixteen
lowercase hex digit characters. -/
theorem claim_C7 (m k : String) :
    getSignature m k = hexEncodeLower (hmacSha1 (strBytes k) (strBytes m)) ∧
    (getSignature m k).length = 40 ∧
    ∀ c ∈ (getSignature m k).data, c ∈ hexDigits := by
  refine ⟨rfl, ?_, ?_⟩
  · unfold getSignature
    rw [hexEncodeLower_length, hmacSha1_length]
  · intro c hc
    have hc2 : c ∈ ((hmacSha1 (strBytes k) (strBytes m)).map hexByte).flatten := hc
    rcases List.mem_flatten.mp hc2 with ⟨l, hl, hcl⟩
    rcases List.mem_map.mp hl with ⟨b, hb, rfl⟩
    rcases (by simpa [hexByte] using hcl : c = hexDigit (b / 16) ∨ c = hexDigit b) with rfl | rfl <;>
      exact hexDigit_mem _

/-- C7 witness: a concrete signature, its length, and the membership of
its first character in the lowercase hex table. -/
theorem claim_C7_witness :
    getSignature "GET /v2 17" "k" =
      hexEncodeLower (hmacSha1 (strBytes "k") (strBytes "GET /v2 17")) ∧
    (getSignature "GET /v2 17" "k").length = 40 ∧
    'c' ∈ hexDigits :=
  ⟨(claim_C7 "GET /v2 17" "k").1, (claim_C7 "GET /v2 17" "k").2.1,
    (claim_C7 "GET /v2 17" "k").2.2 'c' (by decide)⟩

/-- Splitting on a separator yields pieces free of the separator. -/
theorem splitChar_sep_free (sep : Char) :
    ∀ (l acc : List Char), (∀ c ∈ acc, c ≠ sep) →
      ∀ piece ∈ splitChar sep l acc, ∀ c ∈ piece, c ≠ sep := by
  intro l
  induction l with
  | nil =>
    intro acc hacc piece hp c hc
    simp only [splitChar, List.mem_singleton] at hp
    subst hp
    exact hacc c (List.mem_reverse.mp hc)
  | cons x xs ih =>
    intro acc hacc piece hp c hc
    simp only [splitChar] at hp
    by_cases hx : x = sep
    · rw [if_pos hx] at hp
      rcases List.mem_cons.mp hp with rfl | hp2
      · exact hacc c (List.mem_reverse.mp hc)
      · exact ih [] (by simp) piece hp2 c hc
    · rw [if_neg hx] at hp
      refine ih (x :: acc) ?_ piece hp c hc
      intro c2 hc2
      rcases List.mem_cons.mp hc2 with rfl | hc3
      · exact hx
      · exact hacc c2 hc3

/-- The cleaned component stack holds only non-empty, slash-free
components when fed slash-free pieces. -/
theorem cleanStack_good :
    ∀ (pieces stack : List (List Char)),
      (∀ p ∈ pieces, ∀ c ∈ p, c ≠ '/') →
      (∀ p ∈ stack, p ≠ [] ∧ ∀ c ∈ p, c ≠ '/') →
      ∀ p ∈ cleanStack pieces stack, p ≠ [] ∧ ∀ c ∈ p, c ≠ '/' := by
  intro pieces
  induction pieces with
  | nil =>
    intro stack _ hstack p hp
    simp only [cleanStack] at hp
    exact hstack p (List.mem_reverse.mp hp)
  | cons q rest ih =>
    intro stack hpieces hstack p hp
    simp only [cleanStack] at hp
    by_cases h1 : q = [] ∨ q = ['.']
    · rw [if_pos h1] at hp
      exact ih stack (fun p2 hp2 => hpieces p2 (List.mem_cons_of_mem _ hp2)) hstack p hp
    · rw [if_neg h1] at hp
      by_cases h2 : q = ['.', '.']
      · rw [if_pos h2] at hp
        exact ih stack.tail (fun p2 hp2 => hpieces p2 (List.mem_cons_of_mem _ hp2))
          (fun p2 hp2 => hstack p2 (List.mem_of_mem_tail hp2)) p hp
      · rw [if_neg h2] at hp
        refine ih (q :: stack) (fun p2 hp2 => hpieces p2 (List.mem_cons_of_mem _ hp2)) ?_ p hp
        intro p2 hp2
        rcases List.mem_cons.mp hp2 with rfl | hp3
        · exact ⟨fun hq => h1 (Or.inl hq), hpieces p2 (List.mem_cons_self _ _)⟩
        · exact hstack p2 hp3

/-- Joining components starts with the first component's characters. -/
theorem joinComps_head (c : List Char) (rest : List (List Char)) (hc : c ≠ []) :
    (joinComps (c :: rest)).head? = c.head? := by
  cases c with
  | nil => exact absurd rfl hc
  | cons a as => cases rest <;> rfl

/-- The normalized path starts with a separator. -/
theorem pathJoinRoot_firstChar (p : String) : (pathJoinRoot p).data.head? = some '/' := rfl

/-- The normalized path never starts with a double separator. -/
theorem pathJoinRoot_singleSlash (p : String) :
    (pathJoinRoot p).data.tail.head? ≠ some '/' := by
  have hgood : ∀ q ∈ cleanStack (splitChar '/' p.data []) [], q ≠ [] ∧ ∀ c ∈ q, c ≠ '/' :=
    cleanStack_good (splitChar '/' p.data []) []
      (fun q hq c hc => splitChar_sep_free '/' p.data [] (by simp) q hq c hc)
      (by simp)
  unfold pathJoinRoot
  cases hcs : cleanStack (splitChar '/' p.data []) [] with
  | nil => simp [joinComps]
  | cons q qs =>
    rw [hcs] at hgood
    have hq := hgood q (List.mem_cons_self _ _)
    show (joinComps (q :: qs)).head? ≠ some '/'
    rw [joinComps_head q qs hq.1]
    cases q with
    | nil => exact absurd rfl hq.1
    | cons a as =>
      intro hcontra
      have ha : a = '/' := by
        injection hcontra
      exact hq.2 a (List.mem_cons_self _ _) ha

/-- C8: every request the Request Executor builds uses the path
normalized to a single leading separator, signs the canonical message
`"<METHOD> <path> <unixTimestamp>"` built from the same instant as the
`Date` header, sets the JSON content headers and the RFC3339 UTC `Date`
header, attaches basic auth with the configured auth key as username and
the derived signature as password, and carries the given query
parameters. -/
theorem claim_C8 (h : Helper) (now : Int) (method reqPath : String)
    (params : List (String × String)) (body : Option String) :
    (buildRequest h now method reqPath params body).headers =
      [("Content-Type", "application/json"), ("Accept", "application/json"),
       ("Date", rfc3339UTC now)] ∧
    (buildRequest h now method reqPath params body).basicAuthUser = h.authKey ∧
    (buildRequest h now method reqPath params body).basicAuthPass =
      getSignature (method ++ " " ++ pathJoinRoot reqPath ++ " " ++ toString now) h.authSecret ∧
    (buildRequest h now method reqPath params body).url = h.apiEndpoint ++ pathJoinRoot reqPath ∧
    (buildRequest h now method reqPath params body).queryParams = params ∧
    (pathJoinRoot reqPath).data.head? = some '/' ∧
    (pathJoinRoot reqPath).data.tail.head? ≠ some '/' :=
  ⟨rfl, rfl, rfl, rfl, rfl, pathJoinRoot_firstChar reqPath, pathJoinRoot_singleSlash reqPath⟩

/-- The RFC3339 formatter at the epoch, as a sanity check of the civil
conversion. -/
theorem rfc3339_epoch : rfc3339UTC 0 = "1970-01-01T00:00:00Z" := by decide

/-- C1 witness: with maximum page count 2 and a server that always
answers with a non-empty next-page locator, `List` fetches exactly 2 pages
and reports the page-limit error. -/
theorem claim_C1_witness :
    ∃ pages : List (List DnsRecord),
      pages.length = (2 : Int).toNat ∧
      listRecords h2 svrNext "" "" =
        ⟨pages.flatten, some ⟨.pageLimit 2, none⟩, (2 : Int).toNat, pages⟩ :=
  claim_C1 h2 svrNext "" "" Pnext (by decide) (Or.inl ⟨rfl, rfl⟩)
    (by
      intro u p hP
      rcases hP with ⟨hu, hp⟩ | ⟨hu, hp⟩ <;> subst hu <;> subst hp <;>
        exact ⟨by decide, Or.inl (by decide), Or.inr ⟨by decide, by decide⟩⟩)

end Active24
